import Mathlib

/-!
A shallow embedding of the wppsnake game logic, translated from the
TypeScript sources:

* `src/App.tsx` — grid constants, `getRandomPosition`, `startGame`,
  `togglePause`, `moveSnake` (the tick), the keyboard handler and the
  speed formula of the game-loop effect;
* `src/unnamed/part_000` (the shared type declarations) — `GameStatus`,
  `Position`, `GeminiAnalysis`, `LeaderboardEntry`;
* `src/services/storageService.ts` — `getLeaderboard`,
  `saveScoreToLeaderboard`;
* `src/unnamed/part_001` (the gemini service) — `getGameOverCommentary`.

Modelling conventions.  JavaScript numbers holding grid coordinates are
embedded as `Int` (coordinates go negative at the left/top walls before
the wall check fires).  `Math.random()`-driven sampling is embedded as an
explicit stream `rand : Nat → Position` of successive samples consumed by
a fuelled rejection loop, so the nonterminating loop of the source shows
up as `none` when the fuel runs out.  `try`/`catch` around storage and the
generative call is embedded by making the fallible collaborator an
explicit outcome value and returning the caught-branch result on the
error outcomes.  React state setters become functional record updates;
side effects with no bearing on the claims (persisting the player name,
the async analysis dispatch of `handleGameOver`, logging) are dropped,
with the persistence and analysis collaborators themselves embedded
separately below.
-/

/-- `Position` from the shared types: a pair of integer grid coordinates. -/
structure Position where
  x : Int
  y : Int
deriving DecidableEq, Repr

/-- `GameStatus` from the shared types. -/
inductive GameStatus where
  | IDLE
  | PLAYING
  | PAUSED
  | GAME_OVER
deriving DecidableEq, Repr

/-- `GeminiAnalysis` from the shared types. -/
structure GeminiAnalysis where
  commentary : String
  grade : String
deriving DecidableEq, Repr

/-- `LeaderboardEntry` from the shared types: `{name, score, date}`. -/
structure LeaderboardEntry where
  name : String
  score : Int
  date : String
deriving DecidableEq, Repr

/-- `BOARD_SIZE = 15` (App.tsx). -/
def BOARD_SIZE : Int := 15

/-- `INITIAL_SNAKE` (App.tsx): `[{x:7,y:7},{x:7,y:8},{x:7,y:9}]`. -/
def INITIAL_SNAKE : List Position := [⟨7, 7⟩, ⟨7, 8⟩, ⟨7, 9⟩]

/-- `INITIAL_DIRECTION` (App.tsx): `{x:0,y:-1}`. -/
def INITIAL_DIRECTION : Position := ⟨0, -1⟩

/-- `BASE_SPEED = 150` (App.tsx). -/
def BASE_SPEED : Int := 150

/-- The collision test `snake.some(seg => seg.x === p.x && seg.y === p.y)`
used by `getRandomPosition` and by the self-collision check of
`moveSnake`. -/
def collides (snake : List Position) (p : Position) : Bool :=
  snake.any (fun seg => seg.x == p.x && seg.y == p.y)

/-- A candidate produced by
`{x: Math.floor(Math.random()*BOARD_SIZE), y: Math.floor(Math.random()*BOARD_SIZE)}`
always lies on the board: both coordinates in `[0, BOARD_SIZE)`. -/
def onBoard (p : Position) : Prop :=
  0 ≤ p.x ∧ p.x < BOARD_SIZE ∧ 0 ≤ p.y ∧ p.y < BOARD_SIZE

instance (p : Position) : Decidable (onBoard p) := by
  unfold onBoard; infer_instance

/-- The rejection loop of `getRandomPosition` (App.tsx): draw sample `i`,
retry on collision.  `fuel` bounds the number of draws; the source's
`while (true)` corresponds to unbounded fuel, and `none` means the loop
has not returned within `fuel` draws. -/
def getRandomPositionAux (snake : List Position) (rand : Nat → Position) :
    Nat → Nat → Option Position
  | 0, _ => none
  | fuel + 1, i =>
    let newPos := rand i
    if collides snake newPos then getRandomPositionAux snake rand fuel (i + 1)
    else some newPos

/-- `getRandomPosition` (App.tsx): rejection-and-resample over the random
stream, starting at the first sample. -/
def getRandomPosition (snake : List Position) (rand : Nat → Position)
    (fuel : Nat) : Option Position :=
  getRandomPositionAux snake rand fuel 0

/-- JS `String.prototype.trim`: strip leading and trailing whitespace.
(Embedded directly over the character list so that it evaluates.) -/
def jsTrim (s : String) : String :=
  String.mk (((s.data.dropWhile Char.isWhitespace).reverse.dropWhile
    Char.isWhitespace).reverse)

/-- The mutable state of the `App` component that the game logic touches:
`snake`, `food`, `direction` (the ref backing the active direction),
`nextDirection` (the buffered input ref), `status`, `score`, `highScore`,
`playerName` and the `geminiData` analysis result. -/
structure AppState where
  snake : List Position
  food : Position
  direction : Position
  nextDirection : Position
  status : GameStatus
  score : Nat
  highScore : Nat
  playerName : String
  geminiData : Option GeminiAnalysis
deriving DecidableEq, Repr

/-- The wall check of `moveSnake`:
`newHead.x < 0 || newHead.x >= BOARD_SIZE || newHead.y < 0 || newHead.y >= BOARD_SIZE`. -/
def wallHit (p : Position) : Prop :=
  p.x < 0 ∨ BOARD_SIZE ≤ p.x ∨ p.y < 0 ∨ BOARD_SIZE ≤ p.y

instance (p : Position) : Decidable (wallHit p) := by
  unfold wallHit; infer_instance

/-- The synchronous state effect of `handleGameOver` as seen from a tick:
status becomes `GAME_OVER` and the in-process high score is raised to the
session score when exceeded.  (Its leaderboard submission and analysis
request are the collaborator functions embedded separately below; they do
not touch snake, food, direction or score.)  `dir` is the direction that
the tick had already committed to the direction ref before detecting the
collision. -/
def gameOverState (s : AppState) (dir : Position) : AppState :=
  { s with direction := dir
         , status := GameStatus.GAME_OVER
         , highScore := if s.score > s.highScore then s.score else s.highScore }

/-- `moveSnake` (App.tsx), one tick: bail out unless `PLAYING`; copy the
buffered direction into the active direction; compute the new head; wall
check; eating check; self-collision check against the body minus the tail
when not eating (the tail vacates) and against the full body when eating;
commit — prepend the head, and either grow (score +10, regenerate food
avoiding the post-commit snake) or pop the tail.  `none` only when the
food-regeneration loop fails to return within `fuel` draws.  The source
indexes `prevSnake[0]` on a snake that is never empty; the empty-snake
branch returns the state unchanged. -/
def moveSnake (rand : Nat → Position) (fuel : Nat) (s : AppState) :
    Option AppState :=
  if s.status ≠ GameStatus.PLAYING then some s
  else
    match s.snake with
    | [] => some s
    | head :: _ =>
      let dir := s.nextDirection
      let newHead : Position := ⟨head.x + dir.x, head.y + dir.y⟩
      if wallHit newHead then some (gameOverState s dir)
      else
        let isEating : Bool := newHead.x == s.food.x && newHead.y == s.food.y
        let collisionBody := if isEating then s.snake else s.snake.dropLast
        if collides collisionBody newHead then some (gameOverState s dir)
        else
          let newSnake := newHead :: s.snake
          if isEating then
            match getRandomPosition newSnake rand fuel with
            | none => none
            | some f =>
              some { s with direction := dir
                          , snake := newSnake
                          , score := s.score + 10
                          , food := f }
          else
            some { s with direction := dir, snake := newSnake.dropLast }

/-- `togglePause` (App.tsx): swap `PLAYING` and `PAUSED`, leave any other
status alone. -/
def togglePause (st : GameStatus) : GameStatus :=
  match st with
  | GameStatus.PLAYING => GameStatus.PAUSED
  | GameStatus.PAUSED => GameStatus.PLAYING
  | st => st

/-- The keys the `handleKeyDown` listener reacts to.  Upper- and
lower-case letters take the same switch branch in the source and are
collapsed into one constructor each; `Other` stands for every key with no
branch. -/
inductive Key where
  | ArrowUp
  | ArrowDown
  | ArrowLeft
  | ArrowRight
  | KeyW
  | KeyS
  | KeyA
  | KeyD
  | KeyP
  | Escape
  | Other
deriving DecidableEq, Repr

/-- The direction a movement key maps to, `none` for non-movement keys. -/
def keyDir (k : Key) : Option Position :=
  match k with
  | Key.ArrowUp => some ⟨0, -1⟩
  | Key.KeyW => some ⟨0, -1⟩
  | Key.ArrowDown => some ⟨0, 1⟩
  | Key.KeyS => some ⟨0, 1⟩
  | Key.ArrowLeft => some ⟨-1, 0⟩
  | Key.KeyA => some ⟨-1, 0⟩
  | Key.ArrowRight => some ⟨1, 0⟩
  | Key.KeyD => some ⟨1, 0⟩
  | _ => none

/-- `handleKeyDown` (App.tsx): `p`/`P`/`Escape` toggle pause in any
status; every other key is ignored unless `PLAYING`; each movement key
writes its direction into the next-direction buffer unless the matching
component of the current active direction would make the move a direct
reversal (`ArrowUp`/`w` guarded by `currentDir.y !== 1`, and so on). -/
def handleKeyDown (k : Key) (s : AppState) : AppState :=
  match k with
  | Key.KeyP => { s with status := togglePause s.status }
  | Key.Escape => { s with status := togglePause s.status }
  | _ =>
    if s.status ≠ GameStatus.PLAYING then s
    else
      let currentDir := s.direction
      match k with
      | Key.ArrowUp =>
        if currentDir.y ≠ 1 then { s with nextDirection := ⟨0, -1⟩ } else s
      | Key.KeyW =>
        if currentDir.y ≠ 1 then { s with nextDirection := ⟨0, -1⟩ } else s
      | Key.ArrowDown =>
        if currentDir.y ≠ -1 then { s with nextDirection := ⟨0, 1⟩ } else s
      | Key.KeyS =>
        if currentDir.y ≠ -1 then { s with nextDirection := ⟨0, 1⟩ } else s
      | Key.ArrowLeft =>
        if currentDir.x ≠ 1 then { s with nextDirection := ⟨-1, 0⟩ } else s
      | Key.KeyA =>
        if currentDir.x ≠ 1 then { s with nextDirection := ⟨-1, 0⟩ } else s
      | Key.ArrowRight =>
        if currentDir.x ≠ -1 then { s with nextDirection := ⟨1, 0⟩ } else s
      | Key.KeyD =>
        if currentDir.x ≠ -1 then { s with nextDirection := ⟨1, 0⟩ } else s
      | _ => s

/-- A burst of key presses between two ticks, processed in order. -/
def applyKeys (ks : List Key) (s : AppState) : AppState :=
  ks.foldl (fun st k => handleKeyDown k st) s

/-- The outcome of `startGame` (App.tsx).  `rejected` carries the
untouched state (the source alerts and returns early); `noFuel` is the
food-placement loop failing to return within its fuel. -/
inductive StartResult where
  | rejected (s : AppState)
  | noFuel
  | started (s : AppState)
deriving DecidableEq, Repr

/-- `startGame` (App.tsx): an all-whitespace player name is rejected with
an alert and nothing changes; otherwise snake, direction, buffered
direction, score and status are reset, the food is placed by
`getRandomPosition INITIAL_SNAKE`, and the prior analysis result is
cleared.  (Persisting the player name under its storage key is a side
effect with no game state.) -/
def startGame (rand : Nat → Position) (fuel : Nat) (s : AppState) :
    StartResult :=
  if jsTrim s.playerName = "" then StartResult.rejected s
  else
    match getRandomPosition INITIAL_SNAKE rand fuel with
    | none => StartResult.noFuel
    | some f =>
      StartResult.started
        { s with snake := INITIAL_SNAKE
               , direction := INITIAL_DIRECTION
               , nextDirection := INITIAL_DIRECTION
               , score := 0
               , status := GameStatus.PLAYING
               , food := f
               , geminiData := none }

/-- The game-loop effect's interval (App.tsx):
`Math.max(50, BASE_SPEED - Math.floor(score / 50) * 5)`. -/
def tickInterval (score : Nat) : Int :=
  max 50 (BASE_SPEED - (score / 50 : Nat) * 5)

/-- The speed function exactly as §4.1 of the spec words it:
`max(50, 150 − floor(score/50) × 5)`.  Stated separately so the code's
formula can be compared against it. -/
def specTickInterval (score : Nat) : Int :=
  max 50 (150 - ((score / 50 : Nat) : Int) * 5)

/-! ### storageService.ts -/

/-- What `localStorage.getItem(STORAGE_KEY)` did: threw (storage
unavailable), returned `null`, or returned a string. -/
inductive ReadOutcome where
  | unavailable
  | missing
  | stored (data : String)

/-- What `localStorage.setItem(...)` did on the save path. -/
inductive WriteOutcome where
  | ok
  | failed

/-- `getLeaderboard` (storageService.ts): `try { const data = getItem(KEY);
return data ? JSON.parse(data) : [] } catch { log; return [] }`.  The
`JSON.parse` of the stored string is the abstract `parse`, erroring
exactly when the stored JSON is corrupt; a thrown `getItem` or a corrupt
string lands in the catch. -/
def getLeaderboard (read : ReadOutcome)
    (parse : String → Except String (List LeaderboardEntry)) :
    List LeaderboardEntry :=
  match read with
  | ReadOutcome.unavailable => []
  | ReadOutcome.missing => []
  | ReadOutcome.stored data =>
    if data = "" then []
    else
      match parse data with
      | Except.error _ => []
      | Except.ok entries => entries

/-- The stable insertion of one entry into a list already sorted by score
descending: the new entry goes after every existing entry of score ≥ its
own.  Building block for the embedding of the stable
`Array.prototype.sort` call below. -/
def insertEntryDesc (e : LeaderboardEntry) :
    List LeaderboardEntry → List LeaderboardEntry
  | [] => [e]
  | x :: xs =>
    if e.score ≤ x.score then x :: insertEntryDesc e xs else e :: x :: xs

/-- The `sort((a, b) => b.score - a.score)` call of
`saveScoreToLeaderboard`: `Array.prototype.sort` is stable, so the call
is a stable sort descending by score, embedded as left-to-right stable
insertion. -/
def sortByScoreDesc (l : List LeaderboardEntry) : List LeaderboardEntry :=
  l.foldl (fun acc e => insertEntryDesc e acc) []

/-- `MAX_ENTRIES = 10` (storageService.ts). -/
def MAX_ENTRIES : Nat := 10

/-- The entry built by `saveScoreToLeaderboard`:
`{name: name.trim() || 'Anonymous Agent', score, date}` (an
all-whitespace name trims to the falsy empty string, so the placeholder
is used). -/
def newLeaderboardEntry (name : String) (score : Int) (date : String) :
    LeaderboardEntry :=
  ⟨if jsTrim name = "" then "Anonymous Agent" else jsTrim name, score, date⟩

/-- The pure computation of `saveScoreToLeaderboard`: append the new
entry, sort descending by score, keep the top `MAX_ENTRIES`. -/
def updatedLeaderboard (current : List LeaderboardEntry) (name : String)
    (score : Int) (date : String) : List LeaderboardEntry :=
  (sortByScoreDesc (current ++ [newLeaderboardEntry name score date])).take
    MAX_ENTRIES

/-- `saveScoreToLeaderboard` (storageService.ts): read the current list,
append `{name: name.trim() || 'Anonymous Agent', score, date}`, sort
descending by score, keep the top `MAX_ENTRIES`, attempt to persist
(`try { setItem } catch { log }` — the write outcome never reaches the
return), and return the updated list. -/
def saveScoreToLeaderboard (read : ReadOutcome)
    (parse : String → Except String (List LeaderboardEntry))
    (write : WriteOutcome) (name : String) (score : Int) (date : String) :
    List LeaderboardEntry :=
  let updated := updatedLeaderboard (getLeaderboard read parse) name score date
  match write with
  | WriteOutcome.ok => updated
  | WriteOutcome.failed => updated

/-! ### the gemini service (src/unnamed/part_001) -/

/-- What the `generateContent` call did: threw (network/API error), or
resolved with a response whose `text` is absent or a string.  An empty
string is falsy in the source's `if (response.text)` test, like absence. -/
inductive GenOutcome where
  | failure
  | response (text : Option String)

/-- The fixed fallback of `getGameOverCommentary`'s catch. -/
def geminiFallback : GeminiAnalysis :=
  ⟨"The Snake Deity is silent... (API Error)", "?"⟩

/-- `getGameOverCommentary` (the gemini service): inside one `try`, await
the generative call, `JSON.parse` its text when truthy, throw
`"No response text"` otherwise; every throw is caught and the fixed
fallback returned.  `score` and `snakeLength` only feed the prompt
string, which cannot fail; `parse` is `JSON.parse` against the response
schema, erroring on malformed output. -/
def getGameOverCommentary (score : Int) (snakeLength : Nat)
    (call : GenOutcome) (parse : String → Except String GeminiAnalysis) :
    GeminiAnalysis :=
  match call with
  | GenOutcome.failure => geminiFallback
  | GenOutcome.response none => geminiFallback
  | GenOutcome.response (some text) =>
    if text = "" then geminiFallback
    else
      match parse text with
      | Except.error _ => geminiFallback
      | Except.ok analysis => analysis

/-! ### Auxiliary notions used to state the claims -/

/-- The reversal (exact opposite) of a direction vector. -/
def negPos (p : Position) : Position := ⟨-p.x, -p.y⟩

/-- The four unit directions of the data model; every direction the
program ever stores is one of them. -/
def isUnitDir (p : Position) : Prop :=
  p = ⟨0, -1⟩ ∨ p = ⟨0, 1⟩ ∨ p = ⟨-1, 0⟩ ∨ p = ⟨1, 0⟩

instance (p : Position) : Decidable (isUnitDir p) := by
  unfold isUnitDir; infer_instance

/-- The buffer contents after a burst of presses: the most recent pressed
direction that is not the reversal of the active direction, or the
original buffer contents when every press was rejected. -/
def lastValidDir (dir : Position) (ds : List Position) (buf : Position) :
    Position :=
  ((ds.filter (fun d => d != negPos dir)).getLast?).getD buf

/-- All 225 cells of the 15×15 board, for stating that a snake occupies
the whole board. -/
def allCells : List Position :=
  (List.range 225).map
    (fun n => ⟨((n / 15 : Nat) : Int), ((n % 15 : Nat) : Int)⟩)

/-! ### Concrete states used by the witnesses -/

/-- A constant random stream. -/
def constRand (p : Position) : Nat → Position := fun _ => p

/-- A stream whose first draw is `(7, 8)` (occupied by the initial snake)
and whose later draws are `(1, 1)`. -/
def retryRand : Nat → Position := fun i => if i = 0 then ⟨7, 8⟩ else ⟨1, 1⟩

/-- Head at `(0, 3)` moving `(-1, 0)`: the wall scenario of the spec. -/
def wallSt : AppState :=
  { snake := [⟨0, 3⟩, ⟨1, 3⟩, ⟨2, 3⟩], food := ⟨5, 5⟩,
    direction := ⟨-1, 0⟩, nextDirection := ⟨-1, 0⟩,
    status := GameStatus.PLAYING, score := 0, highScore := 0,
    playerName := "Alex", geminiData := none }

/-- Head at `(5, 6)` moving up onto the food at `(5, 5)`. -/
def eatSt : AppState :=
  { snake := [⟨5, 6⟩, ⟨5, 7⟩, ⟨5, 8⟩], food := ⟨5, 5⟩,
    direction := ⟨0, -1⟩, nextDirection := ⟨0, -1⟩,
    status := GameStatus.PLAYING, score := 0, highScore := 0,
    playerName := "Alex", geminiData := none }

/-- The state `eatSt` ticks to when the regenerated food lands at
`(9, 9)`. -/
def eatSt' : AppState :=
  { eatSt with direction := ⟨0, -1⟩
             , snake := [⟨5, 5⟩, ⟨5, 6⟩, ⟨5, 7⟩, ⟨5, 8⟩]
             , score := 10
             , food := ⟨9, 9⟩ }

/-- Head at `(5, 6)` moving up onto its own second segment `(5, 5)`, food
elsewhere. -/
def selfSt : AppState :=
  { snake := [⟨5, 6⟩, ⟨5, 5⟩, ⟨4, 5⟩], food := ⟨0, 0⟩,
    direction := ⟨0, -1⟩, nextDirection := ⟨0, -1⟩,
    status := GameStatus.PLAYING, score := 0, highScore := 0,
    playerName := "Alex", geminiData := none }

/-- A state holding only whitespace in the player-name field. -/
def wsSt : AppState :=
  { wallSt with playerName := "   " }

/-- The press burst used to exercise the input buffer: a rejected
reversal followed by two accepted turns. -/
def burstKeys : List Key := [Key.ArrowDown, Key.ArrowLeft, Key.ArrowRight]

/-- A parse that always reports corrupt JSON. -/
def parseCorrupt : String → Except String (List LeaderboardEntry) :=
  fun _ => Except.error "corrupt"

/-- A gemini-response parse that always reports malformed JSON. -/
def parseGemBad : String → Except String GeminiAnalysis :=
  fun _ => Except.error "malformed"

/-- A gemini-response parse that always succeeds with a fixed analysis. -/
def parseGemOk : String → Except String GeminiAnalysis :=
  fun _ => Except.ok ⟨"Adequate.", "B"⟩

/-! ### Properties of the collision test and the food-placement loop -/

theorem collides_iff_mem (l : List Position) (p : Position) :
    collides l p = true ↔ p ∈ l := by
  unfold collides
  simp only [List.any_eq_true, Bool.and_eq_true, beq_iff_eq]
  constructor
  · rintro ⟨seg, hmem, hx, hy⟩
    obtain ⟨sx, sy⟩ := seg
    obtain ⟨px, py⟩ := p
    simp only at hx hy
    subst hx
    subst hy
    exact hmem
  · intro hp
    exact ⟨p, hp, rfl, rfl⟩

theorem collides_eq_false_iff (l : List Position) (p : Position) :
    collides l p = false ↔ p ∉ l := by
  rw [← collides_iff_mem]
  simp

theorem getRandomPositionAux_some_not_collides (snake : List Position)
    (rand : Nat → Position) :
    ∀ fuel i p, getRandomPositionAux snake rand fuel i = some p →
      collides snake p = false := by
  intro fuel
  induction fuel with
  | zero => intro i p h; simp [getRandomPositionAux] at h
  | succ n ih =>
    intro i p h
    simp only [getRandomPositionAux] at h
    by_cases hc : collides snake (rand i) = true
    · rw [if_pos hc] at h
      exact ih (i + 1) p h
    · rw [if_neg hc] at h
      cases h
      simpa using hc

theorem getRandomPosition_some_not_mem (snake : List Position)
    (rand : Nat → Position) (fuel : Nat) (p : Position)
    (h : getRandomPosition snake rand fuel = some p) : p ∉ snake :=
  (collides_eq_false_iff _ _).mp
    (getRandomPositionAux_some_not_collides snake rand fuel 0 p h)

theorem getRandomPositionAux_none_of_full (snake : List Position)
    (rand : Nat → Position) (hrange : ∀ i, onBoard (rand i))
    (hfull : ∀ q, onBoard q → q ∈ snake) :
    ∀ fuel i, getRandomPositionAux snake rand fuel i = none := by
  intro fuel
  induction fuel with
  | zero => intro i; rfl
  | succ n ih =>
    intro i
    have hc : collides snake (rand i) = true :=
      (collides_iff_mem _ _).mpr (hfull _ (hrange i))
    simp only [getRandomPositionAux, hc, if_true]
    exact ih (i + 1)

theorem getRandomPositionAux_isSome (snake : List Position)
    (rand : Nat → Position) :
    ∀ fuel i, (∃ j, j < fuel ∧ collides snake (rand (i + j)) = false) →
      (getRandomPositionAux snake rand fuel i).isSome = true := by
  intro fuel
  induction fuel with
  | zero =>
    rintro i ⟨j, hj, -⟩
    exact absurd hj (Nat.not_lt_zero j)
  | succ n ih =>
    rintro i ⟨j, hj, hfree⟩
    by_cases hc : collides snake (rand i) = true
    · simp only [getRandomPositionAux, hc, if_true]
      apply ih
      have hj0 : j ≠ 0 := by
        intro h0
        subst h0
        rw [Nat.add_zero] at hfree
        rw [hfree] at hc
        cases hc
      obtain ⟨j', rfl⟩ := Nat.exists_eq_succ_of_ne_zero hj0
      refine ⟨j', by omega, ?_⟩
      have : i + 1 + j' = i + (j' + 1) := by omega
      rw [this]
      exact hfree
    · have hc' : collides snake (rand i) = false := by simpa using hc
      simp [getRandomPositionAux, hc']

/-! ### Properties of the stable descending sort of the leaderboard -/

theorem insertEntryDesc_perm (e : LeaderboardEntry) (l : List LeaderboardEntry) :
    List.Perm (insertEntryDesc e l) (e :: l) := by
  induction l with
  | nil => exact List.Perm.refl _
  | cons x xs ih =>
    unfold insertEntryDesc
    by_cases h : e.score ≤ x.score
    · rw [if_pos h]
      exact List.Perm.trans (List.Perm.cons x ih) (List.Perm.swap e x xs)
    · rw [if_neg h]

theorem insertEntryDesc_sorted (e : LeaderboardEntry)
    (l : List LeaderboardEntry)
    (hl : l.Pairwise (fun a b => b.score ≤ a.score)) :
    (insertEntryDesc e l).Pairwise (fun a b => b.score ≤ a.score) := by
  induction l with
  | nil => simp [insertEntryDesc]
  | cons x xs ih =>
    rw [List.pairwise_cons] at hl
    obtain ⟨hx, hxs⟩ := hl
    unfold insertEntryDesc
    by_cases h : e.score ≤ x.score
    · rw [if_pos h]
      rw [List.pairwise_cons]
      refine ⟨?_, ih hxs⟩
      intro a ha
      have : a ∈ e :: xs := (insertEntryDesc_perm e xs).mem_iff.mp ha
      rcases List.mem_cons.mp this with rfl | hmem
      · exact h
      · exact hx a hmem
    · rw [if_neg h]
      rw [List.pairwise_cons]
      refine ⟨?_, by rw [List.pairwise_cons]; exact ⟨hx, hxs⟩⟩
      intro a ha
      rcases List.mem_cons.mp ha with rfl | hmem
      · omega
      · exact le_trans (hx a hmem) (by omega)

theorem sortByScoreDesc_go_perm (l acc : List LeaderboardEntry) :
    List.Perm (l.foldl (fun a e => insertEntryDesc e a) acc) (acc ++ l) := by
  induction l generalizing acc with
  | nil => simp
  | cons e l ih =>
    simp only [List.foldl_cons]
    refine List.Perm.trans (ih (insertEntryDesc e acc)) ?_
    have h1 : List.Perm (insertEntryDesc e acc ++ l) ((e :: acc) ++ l) :=
      List.Perm.append_right l (insertEntryDesc_perm e acc)
    have h2 : List.Perm ((e :: acc) ++ l) (acc ++ e :: l) := by
      have hm : List.Perm (acc ++ e :: l) (e :: (acc ++ l)) := List.perm_middle
      simpa using hm.symm
    exact h1.trans h2

theorem sortByScoreDesc_perm (l : List LeaderboardEntry) :
    List.Perm (sortByScoreDesc l) l :=
  sortByScoreDesc_go_perm l []

theorem sortByScoreDesc_go_sorted (l acc : List LeaderboardEntry)
    (hacc : acc.Pairwise (fun a b => b.score ≤ a.score)) :
    (l.foldl (fun a e => insertEntryDesc e a) acc).Pairwise
      (fun a b => b.score ≤ a.score) := by
  induction l generalizing acc with
  | nil => simpa using hacc
  | cons e l ih =>
    simp only [List.foldl_cons]
    exact ih _ (insertEntryDesc_sorted e acc hacc)

theorem sortByScoreDesc_sorted (l : List LeaderboardEntry) :
    (sortByScoreDesc l).Pairwise (fun a b => b.score ≤ a.score) :=
  sortByScoreDesc_go_sorted l [] (List.Pairwise.nil)

/-! ### A branch-level characterization of the tick -/

theorem pos_compEq_true_iff (p q : Position) :
    (p.x == q.x && p.y == q.y) = true ↔ p = q := by
  obtain ⟨px, py⟩ := p
  obtain ⟨qx, qy⟩ := q
  simp

theorem moveSnake_playing_eq (rand : Nat → Position) (fuel : Nat)
    (s : AppState) (hd : Position) (rest : List Position)
    (hst : s.status = GameStatus.PLAYING) (hsn : s.snake = hd :: rest) :
    moveSnake rand fuel s =
      (if wallHit ⟨hd.x + s.nextDirection.x, hd.y + s.nextDirection.y⟩ then
        some (gameOverState s s.nextDirection)
      else if collides
          (if (⟨hd.x + s.nextDirection.x, hd.y + s.nextDirection.y⟩ : Position)
              = s.food then s.snake else s.snake.dropLast)
          ⟨hd.x + s.nextDirection.x, hd.y + s.nextDirection.y⟩ then
        some (gameOverState s s.nextDirection)
      else if (⟨hd.x + s.nextDirection.x, hd.y + s.nextDirection.y⟩ : Position)
          = s.food then
        match getRandomPosition
            (⟨hd.x + s.nextDirection.x, hd.y + s.nextDirection.y⟩ :: s.snake)
            rand fuel with
        | none => none
        | some f =>
          some { s with direction := s.nextDirection
                      , snake := ⟨hd.x + s.nextDirection.x,
                          hd.y + s.nextDirection.y⟩ :: s.snake
                      , score := s.score + 10
                      , food := f }
      else
        some { s with direction := s.nextDirection
                    , snake := (⟨hd.x + s.nextDirection.x,
                        hd.y + s.nextDirection.y⟩ :: s.snake).dropLast }) := by
  unfold moveSnake
  rw [if_neg (by simp [hst])]
  rw [hsn]
  simp only []
  by_cases hw : wallHit ⟨hd.x + s.nextDirection.x, hd.y + s.nextDirection.y⟩
  · rw [if_pos hw, if_pos hw]
  · rw [if_neg hw, if_neg hw]
    by_cases heat :
        (⟨hd.x + s.nextDirection.x, hd.y + s.nextDirection.y⟩ : Position) =
          s.food
    · have hb : (hd.x + s.nextDirection.x == s.food.x &&
          hd.y + s.nextDirection.y == s.food.y) = true :=
        (pos_compEq_true_iff ⟨hd.x + s.nextDirection.x,
          hd.y + s.nextDirection.y⟩ s.food).mpr heat
      rw [hb]
      simp [heat]
    · have hb : (hd.x + s.nextDirection.x == s.food.x &&
          hd.y + s.nextDirection.y == s.food.y) = false := by
        rw [← Bool.not_eq_true]
        intro hcontra
        exact heat ((pos_compEq_true_iff _ _).mp hcontra)
      rw [hb]
      simp [heat]

theorem moveSnake_not_playing (rand : Nat → Position) (fuel : Nat)
    (s : AppState) (hst : s.status ≠ GameStatus.PLAYING) :
    moveSnake rand fuel s = some s := by
  unfold moveSnake
  rw [if_pos hst]

theorem moveSnake_nil_snake (rand : Nat → Position) (fuel : Nat)
    (s : AppState) (hsn : s.snake = []) :
    moveSnake rand fuel s = some s := by
  unfold moveSnake
  by_cases hst : s.status = GameStatus.PLAYING
  · rw [if_neg (by simp [hst]), hsn]
  · rw [if_pos hst]

theorem moveSnake_length_mono (rand : Nat → Position) (fuel : Nat)
    (s s' : AppState) (h : moveSnake rand fuel s = some s') :
    s.snake.length ≤ s'.snake.length := by
  by_cases hst : s.status = GameStatus.PLAYING
  · cases hsn : s.snake with
    | nil =>
      rw [moveSnake_nil_snake rand fuel s hsn] at h
      injection h with h
      subst h
      simp [hsn]
    | cons hd rest =>
      rw [moveSnake_playing_eq rand fuel s hd rest hst hsn] at h
      repeat' split at h
      all_goals
        first
        | (injection h with h
           subst h
           simp only [gameOverState, hsn, List.length_cons, List.length_dropLast]
           omega)
        | cases h
  · rw [moveSnake_not_playing rand fuel s hst] at h
    injection h with h
    subst h
    exact Nat.le_refl _

theorem moveSnake_direction_eq (rand : Nat → Position) (fuel : Nat)
    (s s' : AppState) (hd : Position) (rest : List Position)
    (hst : s.status = GameStatus.PLAYING) (hsn : s.snake = hd :: rest)
    (h : moveSnake rand fuel s = some s') :
    s'.direction = s.nextDirection := by
  rw [moveSnake_playing_eq rand fuel s hd rest hst hsn] at h
  repeat' split at h
  all_goals
    first
    | (injection h with h
       subst h
       rfl)
    | cases h

/-! ### Properties of the input buffer -/

theorem handleKeyDown_dirKey (k : Key) (d : Position) (s : AppState)
    (hst : s.status = GameStatus.PLAYING) (hunit : isUnitDir s.direction)
    (hk : keyDir k = some d) :
    handleKeyDown k s =
      if d = negPos s.direction then s else { s with nextDirection := d } := by
  cases k <;>
    first
    | (injection hk with hk
       subst hk
       rcases hunit with h | h | h | h <;>
         simp [handleKeyDown, negPos, hst, h, Position.mk.injEq])
    | injection hk

theorem getLast?_getD_cons (l : List Position) (a b : Position) :
    ((a :: l).getLast?).getD b = (l.getLast?).getD a := by
  cases l with
  | nil => rfl
  | cons x xs =>
    rw [List.getLast?_cons_cons]
    cases hgl : (x :: xs).getLast? with
    | none => simp at hgl
    | some v => rfl

theorem applyKeys_dirKeys (ks : List Key) (s : AppState)
    (hst : s.status = GameStatus.PLAYING) (hunit : isUnitDir s.direction)
    (hks : ∀ k ∈ ks, (keyDir k).isSome = true) :
    applyKeys ks s =
      { s with nextDirection :=
          lastValidDir s.direction (ks.filterMap keyDir) s.nextDirection } := by
  induction ks generalizing s with
  | nil =>
    simp [applyKeys, lastValidDir]
  | cons k ks ih =>
    have hkhead : (keyDir k).isSome = true := hks k (by simp)
    obtain ⟨d, hd⟩ := Option.isSome_iff_exists.mp hkhead
    have hstep := handleKeyDown_dirKey k d s hst hunit hd
    have htail : ∀ k' ∈ ks, (keyDir k').isSome = true := fun k' hk' =>
      hks k' (by simp [hk'])
    simp only [applyKeys, List.foldl_cons]
    rw [hstep]
    have hfm : (k :: ks).filterMap keyDir = d :: ks.filterMap keyDir := by
      simp [List.filterMap_cons, hd]
    rw [hfm]
    by_cases hrej : d = negPos s.direction
    · rw [if_pos hrej]
      have hih := ih s hst hunit htail
      simp only [applyKeys] at hih
      rw [hih]
      congr 1
      simp [lastValidDir, List.filter_cons, hrej]
    · rw [if_neg hrej]
      have hih := ih { s with nextDirection := d } hst hunit htail
      simp only [applyKeys] at hih
      rw [hih]
      congr 1
      simp [lastValidDir, List.filter_cons, hrej, getLast?_getD_cons]

/-! ### The full board -/

theorem allCells_complete : ∀ q, onBoard q → q ∈ allCells := by
  rintro ⟨qx, qy⟩ h
  simp only [onBoard, BOARD_SIZE] at h
  obtain ⟨hx0, hx, hy0, hy⟩ := h
  unfold allCells
  refine List.mem_map.mpr
    ⟨qx.toNat * 15 + qy.toNat, List.mem_range.mpr (by omega), ?_⟩
  simp only [Position.mk.injEq]
  constructor <;> omega

/-! ### The claims -/

/-- C1: a PLAYING tick that reaches the commit step (no wall hit, no
self-collision) behaves as specified.  Part 1 (eating): when the new head
equals the food, the committed state has score increased by exactly 10,
the new head prepended with the tail retained (length +1), and the
regenerated food on no segment of the post-commit snake.  Part 2 (not
eating): the new head is prepended and the tail removed, leaving length
and score unchanged.  Part 3: no tick ever shrinks the snake, so within a
session (no reset) the length never decreases. -/
theorem C1_tick_commit :
    (∀ (rand : Nat → Position) (fuel : Nat) (s s' : AppState)
        (hd : Position) (rest : List Position),
      s.status = GameStatus.PLAYING →
      s.snake = hd :: rest →
      ¬ wallHit ⟨hd.x + s.nextDirection.x, hd.y + s.nextDirection.y⟩ →
      collides s.snake
        ⟨hd.x + s.nextDirection.x, hd.y + s.nextDirection.y⟩ = false →
      (⟨hd.x + s.nextDirection.x, hd.y + s.nextDirection.y⟩ : Position)
        = s.food →
      moveSnake rand fuel s = some s' →
      s'.score = s.score + 10 ∧
      s'.snake =
        ⟨hd.x + s.nextDirection.x, hd.y + s.nextDirection.y⟩ :: s.snake ∧
      s'.snake.length = s.snake.length + 1 ∧
      collides s'.snake s'.food = false) ∧
    (∀ (rand : Nat → Position) (fuel : Nat) (s s' : AppState)
        (hd : Position) (rest : List Position),
      s.status = GameStatus.PLAYING →
      s.snake = hd :: rest →
      ¬ wallHit ⟨hd.x + s.nextDirection.x, hd.y + s.nextDirection.y⟩ →
      (⟨hd.x + s.nextDirection.x, hd.y + s.nextDirection.y⟩ : Position)
        ≠ s.food →
      collides s.snake.dropLast
        ⟨hd.x + s.nextDirection.x, hd.y + s.nextDirection.y⟩ = false →
      moveSnake rand fuel s = some s' →
      s'.score = s.score ∧
      s'.snake =
        (⟨hd.x + s.nextDirection.x, hd.y + s.nextDirection.y⟩ ::
          s.snake).dropLast ∧
      s'.snake.length = s.snake.length) ∧
    (∀ (rand : Nat → Position) (fuel : Nat) (s s' : AppState),
      moveSnake rand fuel s = some s' →
      s.snake.length ≤ s'.snake.length) := by
  refine ⟨?_, ?_, fun rand fuel s s' h =>
    moveSnake_length_mono rand fuel s s' h⟩
  · intro rand fuel s s' hd rest hst hsn hnw hcol heat hmv
    rw [moveSnake_playing_eq rand fuel s hd rest hst hsn] at hmv
    rw [if_neg hnw, if_pos heat, if_neg (by simp [hcol]), if_pos heat] at hmv
    cases hg : getRandomPosition
        (⟨hd.x + s.nextDirection.x, hd.y + s.nextDirection.y⟩ :: s.snake)
        rand fuel with
    | none => rw [hg] at hmv; cases hmv
    | some f =>
      rw [hg] at hmv
      injection hmv with hmv
      subst hmv
      refine ⟨rfl, rfl, by simp, ?_⟩
      exact getRandomPositionAux_some_not_collides _ rand fuel 0 f hg
  · intro rand fuel s s' hd rest hst hsn hnw hne hcol hmv
    rw [moveSnake_playing_eq rand fuel s hd rest hst hsn] at hmv
    rw [if_neg hnw, if_neg hne, if_neg (by simp [hcol]), if_neg hne] at hmv
    injection hmv with hmv
    subst hmv
    refine ⟨rfl, rfl, ?_⟩
    rw [hsn]
    simp [List.length_dropLast]

/-- Witness for C1: in `eatSt` the head `(5,6)` moves up onto the food at
`(5,5)` and the tick commits to `eatSt'`. -/
theorem C1_tick_commit_witness :
    eatSt'.score = eatSt.score + 10 ∧
    eatSt'.snake = ⟨5, 5⟩ :: eatSt.snake ∧
    eatSt'.snake.length = eatSt.snake.length + 1 ∧
    collides eatSt'.snake eatSt'.food = false :=
  C1_tick_commit.1 (constRand ⟨9, 9⟩) 1 eatSt eatSt' ⟨5, 6⟩
    [⟨5, 7⟩, ⟨5, 8⟩] (by decide) (by decide) (by decide) (by decide)
    (by decide) (by decide)

/-- C2: a PLAYING tick whose new head leaves the board ends in
`GAME_OVER` with snake, food and score untouched (no prepend, no tail
removal).  The witness instantiates the spec scenario: head `(0,3)`
moving `(-1,0)`. -/
theorem C2_wall_game_over (rand : Nat → Position) (fuel : Nat)
    (s : AppState) (hd : Position) (rest : List Position)
    (hst : s.status = GameStatus.PLAYING) (hsn : s.snake = hd :: rest)
    (hw : wallHit ⟨hd.x + s.nextDirection.x, hd.y + s.nextDirection.y⟩) :
    moveSnake rand fuel s = some (gameOverState s s.nextDirection) ∧
    (gameOverState s s.nextDirection).status = GameStatus.GAME_OVER ∧
    (gameOverState s s.nextDirection).snake = s.snake ∧
    (gameOverState s s.nextDirection).food = s.food ∧
    (gameOverState s s.nextDirection).score = s.score := by
  refine ⟨?_, rfl, rfl, rfl, rfl⟩
  rw [moveSnake_playing_eq rand fuel s hd rest hst hsn, if_pos hw]

/-- Witness for C2: the spec scenario, head at `(0,3)` moving `(-1,0)`. -/
theorem C2_wall_game_over_witness :
    moveSnake (constRand ⟨0, 0⟩) 1 wallSt =
      some (gameOverState wallSt wallSt.nextDirection) ∧
    (gameOverState wallSt wallSt.nextDirection).status =
      GameStatus.GAME_OVER ∧
    (gameOverState wallSt wallSt.nextDirection).snake = wallSt.snake ∧
    (gameOverState wallSt wallSt.nextDirection).food = wallSt.food ∧
    (gameOverState wallSt wallSt.nextDirection).score = wallSt.score :=
  C2_wall_game_over (constRand ⟨0, 0⟩) 1 wallSt ⟨0, 3⟩ [⟨1, 3⟩, ⟨2, 3⟩]
    (by decide) (by decide) (by decide)

/-- C3: a PLAYING tick with the new head on the board compares it against
the body minus the tail when not eating and against the full body when
eating; a hit in that comparison set ends the tick in `GAME_OVER` with
snake, food and score untouched. -/
theorem C3_self_collision_game_over (rand : Nat → Position) (fuel : Nat)
    (s : AppState) (hd : Position) (rest : List Position)
    (hst : s.status = GameStatus.PLAYING) (hsn : s.snake = hd :: rest)
    (hnw : ¬ wallHit ⟨hd.x + s.nextDirection.x, hd.y + s.nextDirection.y⟩)
    (hself : (⟨hd.x + s.nextDirection.x, hd.y + s.nextDirection.y⟩ :
        Position) ∈
      (if (⟨hd.x + s.nextDirection.x, hd.y + s.nextDirection.y⟩ : Position)
          = s.food then s.snake else s.snake.dropLast)) :
    moveSnake rand fuel s = some (gameOverState s s.nextDirection) ∧
    (gameOverState s s.nextDirection).status = GameStatus.GAME_OVER ∧
    (gameOverState s s.nextDirection).snake = s.snake ∧
    (gameOverState s s.nextDirection).food = s.food ∧
    (gameOverState s s.nextDirection).score = s.score := by
  refine ⟨?_, rfl, rfl, rfl, rfl⟩
  rw [moveSnake_playing_eq rand fuel s hd rest hst hsn, if_neg hnw,
    if_pos ((collides_iff_mem _ _).mpr hself)]

/-- Witness for C3: in `selfSt` the head `(5,6)` moves up onto its own
second segment `(5,5)`. -/
theorem C3_self_collision_game_over_witness :
    moveSnake (constRand ⟨0, 0⟩) 1 selfSt =
      some (gameOverState selfSt selfSt.nextDirection) ∧
    (gameOverState selfSt selfSt.nextDirection).status =
      GameStatus.GAME_OVER ∧
    (gameOverState selfSt selfSt.nextDirection).snake = selfSt.snake ∧
    (gameOverState selfSt selfSt.nextDirection).food = selfSt.food ∧
    (gameOverState selfSt selfSt.nextDirection).score = selfSt.score :=
  C3_self_collision_game_over (constRand ⟨0, 0⟩) 1 selfSt ⟨5, 6⟩
    [⟨5, 5⟩, ⟨4, 5⟩] (by decide) (by decide) (by decide) (by decide)

/-- C4: input buffering.  Part 1: a movement key pressed while PLAYING
leaves the next-direction buffer unchanged when its direction is the
exact opposite of the active direction and overwrites the buffer with it
otherwise (and touches nothing else).  Part 2: over any burst of movement
keys between two ticks, the buffer ends up holding the most recent
pressed direction that is not the reversal of the active direction
(which never changes during the burst), so only the last valid press is
honored.  Part 3: each tick copies the buffer into the active direction
at its start, so at most one buffered change takes effect per tick. -/
theorem C4_input_buffer :
    (∀ (k : Key) (d : Position) (s : AppState),
      s.status = GameStatus.PLAYING →
      isUnitDir s.direction →
      keyDir k = some d →
      handleKeyDown k s =
        if d = negPos s.direction then s
        else { s with nextDirection := d }) ∧
    (∀ (ks : List Key) (s : AppState),
      s.status = GameStatus.PLAYING →
      isUnitDir s.direction →
      (∀ k ∈ ks, (keyDir k).isSome = true) →
      applyKeys ks s =
        { s with
            nextDirection :=
              lastValidDir s.direction (ks.filterMap keyDir)
                s.nextDirection }) ∧
    (∀ (rand : Nat → Position) (fuel : Nat) (s s' : AppState)
        (hd : Position) (rest : List Position),
      s.status = GameStatus.PLAYING →
      s.snake = hd :: rest →
      moveSnake rand fuel s = some s' →
      s'.direction = s.nextDirection) :=
  ⟨fun k d s hst hunit hk => handleKeyDown_dirKey k d s hst hunit hk,
   fun ks s hst hunit hks => applyKeys_dirKeys ks s hst hunit hks,
   fun rand fuel s s' hd rest hst hsn h =>
     moveSnake_direction_eq rand fuel s s' hd rest hst hsn h⟩

/-- Witness for C4: the burst down/left/right on a snake moving up — the
reversal is dropped, the later presses overwrite, and a tick of `eatSt`
copies the buffer into the active direction. -/
theorem C4_input_buffer_witness :
    (applyKeys burstKeys eatSt =
      { eatSt with
          nextDirection :=
            lastValidDir eatSt.direction (burstKeys.filterMap keyDir)
              eatSt.nextDirection }) ∧
    eatSt'.direction = eatSt.nextDirection :=
  ⟨C4_input_buffer.2.1 burstKeys eatSt (by decide) (by decide) (by decide),
   C4_input_buffer.2.2 (constRand ⟨9, 9⟩) 1 eatSt eatSt' ⟨5, 6⟩
     [⟨5, 7⟩, ⟨5, 8⟩] (by decide) (by decide) (by decide)⟩

/-- C5: the start command.  Part 1: an all-whitespace player name is
rejected (alert) and the state is returned untouched.  Part 2: with a
non-blank name the started state is exactly the reset — snake
`[(7,7),(7,8),(7,9)]`, both direction fields `(0,-1)`, score `0`, status
`PLAYING`, the food off the initial snake, the analysis result cleared.
Part 3: the outcome of a successful start is the same whatever the prior
status, so starting from IDLE and restarting from GAME_OVER coincide. -/
theorem C5_start_game :
    (∀ (rand : Nat → Position) (fuel : Nat) (s : AppState),
      jsTrim s.playerName = "" →
      startGame rand fuel s = StartResult.rejected s) ∧
    (∀ (rand : Nat → Position) (fuel : Nat) (s : AppState) (f : Position),
      jsTrim s.playerName ≠ "" →
      getRandomPosition INITIAL_SNAKE rand fuel = some f →
      startGame rand fuel s =
        StartResult.started
          { s with snake := INITIAL_SNAKE
                 , direction := INITIAL_DIRECTION
                 , nextDirection := INITIAL_DIRECTION
                 , score := 0
                 , status := GameStatus.PLAYING
                 , food := f
                 , geminiData := none } ∧
      f ∉ INITIAL_SNAKE ∧
      INITIAL_SNAKE = [⟨7, 7⟩, ⟨7, 8⟩, ⟨7, 9⟩] ∧
      INITIAL_DIRECTION = ⟨0, -1⟩) ∧
    (∀ (rand : Nat → Position) (fuel : Nat) (s : AppState)
        (a b : GameStatus) (s' : AppState),
      startGame rand fuel { s with status := a } = StartResult.started s' →
      startGame rand fuel { s with status := b } = StartResult.started s') := by
  refine ⟨?_, ?_, ?_⟩
  · intro rand fuel s h
    unfold startGame
    rw [if_pos h]
  · intro rand fuel s f hn hf
    refine ⟨?_, getRandomPosition_some_not_mem _ _ _ _ hf, rfl, rfl⟩
    unfold startGame
    rw [if_neg hn, hf]
  · intro rand fuel s a b s' h
    unfold startGame at h ⊢
    dsimp only at h ⊢
    by_cases hn : jsTrim s.playerName = ""
    · rw [if_pos hn] at h
      cases h
    · rw [if_neg hn] at h ⊢
      cases hf : getRandomPosition INITIAL_SNAKE rand fuel with
      | none =>
        rw [hf] at h
        cases h
      | some f =>
        rw [hf] at h
        injection h with h
        subst h
        rfl

/-- Witness for C5: a whitespace name is rejected; the name "Alex"
starts with the spec's reset state and the food off the initial snake. -/
theorem C5_start_game_witness :
    startGame (constRand ⟨3, 3⟩) 1 wsSt = StartResult.rejected wsSt ∧
    (startGame (constRand ⟨3, 3⟩) 1 wallSt =
      StartResult.started
        { wallSt with snake := INITIAL_SNAKE
                    , direction := INITIAL_DIRECTION
                    , nextDirection := INITIAL_DIRECTION
                    , score := 0
                    , status := GameStatus.PLAYING
                    , food := ⟨3, 3⟩
                    , geminiData := none } ∧
      (⟨3, 3⟩ : Position) ∉ INITIAL_SNAKE ∧
      INITIAL_SNAKE = [⟨7, 7⟩, ⟨7, 8⟩, ⟨7, 9⟩] ∧
      INITIAL_DIRECTION = ⟨0, -1⟩) :=
  ⟨C5_start_game.1 (constRand ⟨3, 3⟩) 1 wsSt (by decide),
   C5_start_game.2.1 (constRand ⟨3, 3⟩) 1 wallSt ⟨3, 3⟩ (by decide)
     (by decide)⟩

/-- C6: the tick interval is `max(50, 150 − floor(score/50)·5)`
milliseconds, with the spec's anchor values 150 at score 0, 125 at score
250 and the 50 floor at score 2000. -/
theorem C6_speed_formula :
    (∀ score : Nat, tickInterval score = specTickInterval score) ∧
    tickInterval 0 = 150 ∧ tickInterval 250 = 125 ∧ tickInterval 2000 = 50 :=
  ⟨fun _ => rfl, by decide, by decide, by decide⟩

/-- C7: the leaderboard save.  The returned (and persisted) list is the
stored list plus one entry — named by the trimmed input, or
"Anonymous Agent" when that trims empty — sorted descending by score and
truncated to at most 10, with equal-score duplicates retained: it is
sorted, no longer than 10, drawn from the appended list, all of which is
kept while at most 10 entries exist; and the spec's example — scores
50, 90, 30, then 90 again — yields both 90-entries ahead of 50 and 30. -/
theorem C7_leaderboard_save :
    (∀ (read : ReadOutcome)
        (parse : String → Except String (List LeaderboardEntry))
        (write : WriteOutcome) (name : String) (score : Int) (date : String),
      saveScoreToLeaderboard read parse write name score date =
        updatedLeaderboard (getLeaderboard read parse) name score date) ∧
    (∀ (current : List LeaderboardEntry) (name : String) (score : Int)
        (date : String),
      (updatedLeaderboard current name score date).Pairwise
        (fun a b => b.score ≤ a.score) ∧
      (updatedLeaderboard current name score date).length ≤ 10 ∧
      List.Subperm (updatedLeaderboard current name score date)
        (current ++ [newLeaderboardEntry name score date]) ∧
      (current.length + 1 ≤ 10 →
        List.Perm (updatedLeaderboard current name score date)
          (current ++ [newLeaderboardEntry name score date]))) ∧
    (newLeaderboardEntry "  Alex " 50 "d" = ⟨"Alex", 50, "d"⟩ ∧
      newLeaderboardEntry "   " 50 "d" = ⟨"Anonymous Agent", 50, "d"⟩) ∧
    updatedLeaderboard
        (updatedLeaderboard
          (updatedLeaderboard (updatedLeaderboard [] "A" 50 "d") "B" 90 "d")
          "C" 30 "d") "D" 90 "d" =
      [⟨"B", 90, "d"⟩, ⟨"D", 90, "d"⟩, ⟨"A", 50, "d"⟩, ⟨"C", 30, "d"⟩] := by
  refine ⟨?_, ?_, by constructor <;> decide, by decide⟩
  · intro read parse write name score date
    cases write <;> rfl
  · intro current name score date
    refine ⟨?_, ?_, ?_, ?_⟩
    · exact List.Pairwise.sublist (List.take_sublist _ _)
        (sortByScoreDesc_sorted _)
    · exact le_trans (List.length_take_le _ _) (le_refl _)
    · exact List.Subperm.trans
        ((List.take_sublist _ _).subperm)
        ((sortByScoreDesc_perm _).subperm)
    · intro hlen
      have hlen' : (sortByScoreDesc
          (current ++ [newLeaderboardEntry name score date])).length ≤ 10 := by
        rw [(sortByScoreDesc_perm _).length_eq]
        simpa using hlen
      unfold updatedLeaderboard MAX_ENTRIES
      rw [List.take_of_length_le hlen']
      exact sortByScoreDesc_perm _

/-- Witness for C7: saving one entry into an empty leaderboard keeps
everything. -/
theorem C7_leaderboard_save_witness :
    List.Perm (updatedLeaderboard [] "A" 50 "d")
      ([] ++ [newLeaderboardEntry "A" 50 "d"]) :=
  (C7_leaderboard_save.2.1 [] "A" 50 "d").2.2.2 (by decide)

/-- C8: persistence failures never propagate.  A read from unavailable
storage or of corrupt JSON loads as the empty list; a failing write
leaves the save's return value — the computed updated list — unchanged. -/
theorem C8_persistence_failures :
    (∀ parse, getLeaderboard ReadOutcome.unavailable parse = []) ∧
    (∀ (parse : String → Except String (List LeaderboardEntry))
        (data err : String),
      parse data = Except.error err →
      getLeaderboard (ReadOutcome.stored data) parse = []) ∧
    (∀ (read : ReadOutcome)
        (parse : String → Except String (List LeaderboardEntry))
        (name : String) (score : Int) (date : String),
      saveScoreToLeaderboard read parse WriteOutcome.failed name score date =
        saveScoreToLeaderboard read parse WriteOutcome.ok name score date ∧
      saveScoreToLeaderboard read parse WriteOutcome.failed name score date =
        updatedLeaderboard (getLeaderboard read parse) name score date) := by
  refine ⟨fun parse => rfl, ?_,
    fun read parse name score date => ⟨rfl, rfl⟩⟩
  intro parse data err h
  unfold getLeaderboard
  dsimp only
  by_cases hd : data = ""
  · rw [if_pos hd]
  · rw [if_neg hd, h]

/-- Witness for C8: a corrupt stored string loads as the empty list. -/
theorem C8_persistence_failures_witness :
    getLeaderboard (ReadOutcome.stored "bad") parseCorrupt = [] :=
  C8_persistence_failures.2.1 parseCorrupt "bad" "corrupt" rfl

/-- C9: the analysis call never propagates a failure: for every score and
snake length it returns an analysis value, equal to the fixed fallback —
whose grade is the sentinel "?" — when the generative call throws, when
the response text is absent or empty, or when the text fails to parse;
and equal to the parsed analysis on success. -/
theorem C9_analysis_fallback :
    (∀ (score : Int) (len : Nat)
        (parse : String → Except String GeminiAnalysis),
      getGameOverCommentary score len GenOutcome.failure parse =
        geminiFallback ∧
      getGameOverCommentary score len (GenOutcome.response none) parse =
        geminiFallback ∧
      getGameOverCommentary score len (GenOutcome.response (some "")) parse =
        geminiFallback) ∧
    (∀ (score : Int) (len : Nat)
        (parse : String → Except String GeminiAnalysis) (t err : String),
      parse t = Except.error err →
      getGameOverCommentary score len (GenOutcome.response (some t)) parse =
        geminiFallback) ∧
    (∀ (score : Int) (len : Nat)
        (parse : String → Except String GeminiAnalysis) (t : String)
        (a : GeminiAnalysis),
      t ≠ "" → parse t = Except.ok a →
      getGameOverCommentary score len (GenOutcome.response (some t)) parse =
        a) ∧
    geminiFallback.grade = "?" := by
  refine ⟨fun score len parse => ⟨rfl, rfl, ?_⟩, ?_, ?_, rfl⟩
  · unfold getGameOverCommentary
    dsimp only
    rw [if_pos rfl]
  · intro score len parse t err h
    unfold getGameOverCommentary
    dsimp only
    by_cases ht : t = ""
    · rw [if_pos ht]
    · rw [if_neg ht, h]
  · intro score len parse t a ht h
    unfold getGameOverCommentary
    dsimp only
    rw [if_neg ht, h]

/-- Witness for C9: a malformed response falls back, a well-formed one is
returned as parsed. -/
theorem C9_analysis_fallback_witness :
    getGameOverCommentary 120 15 (GenOutcome.response (some "oops"))
      parseGemBad = geminiFallback ∧
    getGameOverCommentary 120 15
      (GenOutcome.response (some "fine")) parseGemOk = ⟨"Adequate.", "B"⟩ :=
  ⟨C9_analysis_fallback.2.1 120 15 parseGemBad "oops" "malformed" rfl,
   C9_analysis_fallback.2.2.1 120 15 parseGemOk "fine" ⟨"Adequate.", "B"⟩
     (by decide) rfl⟩

/-- C10: the food-placement loop.  Part 1: whenever it returns, the
returned cell is on no snake segment.  Part 2: when the snake covers
every cell of the 15×15 board, no amount of fuel makes the loop return —
the source's unbounded loop never terminates on a full board.  Part 3:
the loop does terminate once the sample stream reaches a free cell. -/
theorem C10_food_loop_termination :
    (∀ (snake : List Position) (rand : Nat → Position) (fuel : Nat)
        (p : Position),
      getRandomPosition snake rand fuel = some p → p ∉ snake) ∧
    (∀ (snake : List Position) (rand : Nat → Position),
      (∀ i, onBoard (rand i)) →
      (∀ q, onBoard q → q ∈ snake) →
      ∀ fuel, getRandomPosition snake rand fuel = none) ∧
    (∀ (snake : List Position) (rand : Nat → Position) (n fuel : Nat),
      collides snake (rand n) = false → n < fuel →
      (getRandomPosition snake rand fuel).isSome = true) :=
  ⟨fun snake rand fuel p h =>
    getRandomPosition_some_not_mem snake rand fuel p h,
   fun snake rand hrange hfull fuel =>
    getRandomPositionAux_none_of_full snake rand hrange hfull fuel 0,
   fun snake rand n fuel hfree hn =>
    getRandomPositionAux_isSome snake rand fuel 0
      ⟨n, hn, by simpa using hfree⟩⟩

/-- Witness for C10: a returned cell avoids the snake; the loop never
returns over the full board `allCells`; and it returns within two draws
when the second draw is free. -/
theorem C10_food_loop_termination_witness :
    (⟨1, 1⟩ : Position) ∉ [(⟨0, 0⟩ : Position)] ∧
    getRandomPosition allCells (constRand ⟨0, 0⟩) 3 = none ∧
    (getRandomPosition [⟨7, 8⟩] retryRand 2).isSome = true :=
  ⟨C10_food_loop_termination.1 [⟨0, 0⟩] (constRand ⟨1, 1⟩) 1 ⟨1, 1⟩
     (by decide),
   C10_food_loop_termination.2.1 allCells (constRand ⟨0, 0⟩)
     (fun _ => (by decide : onBoard ⟨0, 0⟩)) allCells_complete 3,
   C10_food_loop_termination.2.2 [⟨7, 8⟩] retryRand 1 2 (by decide)
     (by decide)⟩
